import Mathlib

/-!
Verification of the graceful-shutdown coordinator and structured logger of
the `indiependente/pkg` Go repository.

* `shutdown/shutdown.go` — `Wait` and `WaitWithLogger` are embedded as
  small-step state machines over an explicit scheduler: the caller thread
  and the background `errgroup` task are two program counters, the
  capacity-1 signal channel is a list of length at most one, and the
  cancellable context is a boolean done-flag that environment steps
  (external cancellation) may also set.  The termination callback is
  modelled by its result (`Option GoError`, `none` = Go `nil`), since the
  coordinator passes it the already-cancelled context and only inspects
  the returned error.
* `logger/logger.go` — the chainable field-setters of `FastLogger` are
  embedded with an explicit heap (pointers are list indices, `lcopy := *l`
  allocates a fresh cell), so that non-mutation of the receiver is a real
  statement about the model rather than a triviality of pure functions.
-/

namespace Pkg

/-! ### Go errors

`fmt.Errorf("...: %w", err)` produces an error whose `Error()` message is
the formatted string and whose `Unwrap()` is `err`. -/

/-- A Go error value: either a leaf error or a wrapping error as produced
by `fmt.Errorf` with the `%w` verb. -/
inductive GoError where
  | base (msg : String)
  | wrap (msg : String) (cause : GoError)
deriving DecidableEq, Repr

/-- Go method Error() — the message of a Go error. -/
def GoError.message : GoError → String
  | .base m => m
  | .wrap m _ => m

/-- Go function errors.Unwrap — the wrapped cause, if any. -/
def GoError.unwrap : GoError → Option GoError
  | .base _ => none
  | .wrap _ c => some c

/-- Substring containment for messages: `s` occurs inside `m`. -/
def strContains (m s : String) : Prop := ∃ a b, m = a ++ (s ++ b)

/-- The error-aggregation tail of `Wait` (shutdown.go lines 42–47):
`err := eg.Wait(); if err != nil { return fmt.Errorf("could not terminate
gracefully: %w", err) }; return nil`. -/
def waitReturn (r : Option GoError) : Option GoError :=
  match r with
  | some e => some (.wrap ("could not terminate gracefully: " ++ e.message) e)
  | none => none

/-! ### OS signals -/

/-- The two termination-class signals the coordinator registers for. -/
inductive Sig where
  | SIGINT
  | SIGTERM
deriving DecidableEq, Repr

/-- Value of syscall.Signal.String() for the two signals. -/
def Sig.str : Sig → String
  | .SIGINT => "interrupt"
  | .SIGTERM => "terminated"

/-! ### The `Wait` state machine (shutdown.go lines 19–48)

One `Wait` invocation has two program counters: the caller thread
(`MainPC`) and the background task started with `eg.Go` (`BgPC`).  The
environment may deliver signals into the capacity-1 channel and may
cancel the shared context externally at any time. -/

/-- Program counter of the caller thread inside `Wait`. -/
inductive MainPC where
  | awaitSignal
  | invokeCancel
  | awaitJoin
  | returned
deriving DecidableEq, Repr

/-- Program counter of the background termination goroutine. -/
inductive BgPC where
  | awaitDone
  | finished
deriving DecidableEq, Repr

/-- State of one `Wait` invocation together with its environment-visible
context and channel. -/
structure WaitState where
  /-- contents of the buffered `gracefulStop` channel (capacity 1) -/
  sigQueue : List Sig
  /-- whether `ctx.Done()` has fired -/
  ctxDone : Bool
  /-- how many times the coordinator itself invoked `cancel` -/
  coordCancels : Nat
  /-- how many times the environment invoked `cancel` externally -/
  extCancels : Nat
  /-- how many times the termination callback was invoked -/
  callbackRuns : Nat
  /-- result captured by the errgroup once the callback returned -/
  callbackResult : Option (Option GoError)
  /-- the signal received from the channel by the caller thread -/
  recvSignal : Option Sig
  main : MainPC
  bg : BgPC
  /-- return value of `Wait` once it has returned -/
  ret : Option (Option GoError)
deriving DecidableEq, Repr

/-- State at entry of `Wait`, after the channel is created and the two
`signal.Notify` registrations are performed. -/
def initWait : WaitState :=
  { sigQueue := []
    ctxDone := false
    coordCancels := 0
    extCancels := 0
    callbackRuns := 0
    callbackResult := none
    recvSignal := none
    main := .awaitSignal
    bg := .awaitDone
    ret := none }

/-- One scheduler step of a `Wait` execution whose termination callback
returns `termRes`.  `deliver` and `extCancel` are environment steps; the
rest transcribe the statements of `Wait`. -/
inductive WaitStep (termRes : Option GoError) : WaitState → WaitState → Prop where
  /-- the OS delivers a termination signal; the capacity-1 buffer accepts
  it only when empty (otherwise the `signal` package drops it) -/
  | deliver (s : WaitState) (sig : Sig) (hq : s.sigQueue = []) :
      WaitStep termRes s { s with sigQueue := [sig] }
  /-- some unrelated subsystem invokes the same cancel trigger -/
  | extCancel (s : WaitState) :
      WaitStep termRes s { s with ctxDone := true, extCancels := s.extCancels + 1 }
  /-- line 36: `<-gracefulStop` -/
  | recv (s : WaitState) (sig : Sig) (rest : List Sig)
      (hm : s.main = .awaitSignal) (hq : s.sigQueue = sig :: rest) :
      WaitStep termRes s
        { s with sigQueue := rest, recvSignal := some sig, main := .invokeCancel }
  /-- line 39: `cancel()` — idempotent: it (re-)sets the done flag -/
  | cancel (s : WaitState) (hm : s.main = .invokeCancel) :
      WaitStep termRes s
        { s with ctxDone := true, coordCancels := s.coordCancels + 1, main := .awaitJoin }
  /-- lines 31–32: the background task passes `<-ctx.Done()` (only once the
  done flag is set, whatever set it) and runs `termFn(ctx)` -/
  | bgRun (s : WaitState) (hb : s.bg = .awaitDone) (hd : s.ctxDone = true) :
      WaitStep termRes s
        { s with callbackRuns := s.callbackRuns + 1
                 callbackResult := some termRes
                 bg := .finished }
  /-- lines 42–47: `eg.Wait()` joins the finished task and `Wait` returns -/
  | join (s : WaitState) (r : Option GoError)
      (hm : s.main = .awaitJoin) (hb : s.bg = .finished)
      (hr : s.callbackResult = some r) :
      WaitStep termRes s { s with ret := some (waitReturn r), main := .returned }

/-- Reachability of a state from the entry of `Wait` under any scheduling. -/
def WaitReachable (termRes : Option GoError) : WaitState → Prop :=
  Relation.ReflTransGen (WaitStep termRes) initWait

/-- Execution invariant of `Wait`, established below for every reachable
state. -/
def WaitInv (termRes : Option GoError) (s : WaitState) : Prop :=
  s.sigQueue.length ≤ 1 ∧
  ((s.main = .awaitSignal ∨ s.main = .invokeCancel) → s.coordCancels = 0) ∧
  ((s.main = .awaitJoin ∨ s.main = .returned) →
    s.coordCancels = 1 ∧ s.ctxDone = true) ∧
  (s.main = .awaitSignal → s.recvSignal = none) ∧
  (s.main ≠ .awaitSignal → ∃ sig, s.recvSignal = some sig) ∧
  (s.bg = .awaitDone → s.callbackRuns = 0 ∧ s.callbackResult = none) ∧
  (s.bg = .finished → s.callbackRuns = 1 ∧ s.callbackResult = some termRes) ∧
  (1 ≤ s.callbackRuns → s.ctxDone = true) ∧
  (s.ret ≠ none → s.main = .returned) ∧
  (s.main = .returned → s.ret = some (waitReturn termRes) ∧ s.bg = .finished)

theorem waitInv_init (termRes : Option GoError) : WaitInv termRes initWait := by
  simp [WaitInv, initWait]

theorem waitInv_step {termRes : Option GoError} {s t : WaitState}
    (hst : WaitStep termRes s t) (ih : WaitInv termRes s) : WaitInv termRes t := by
  obtain ⟨i1, i2, i3, i4, i5, i6, i7, i8, i9, i10⟩ := ih
  cases hst with
  | deliver sig hq =>
    exact ⟨by simp, i2, i3, i4, i5, i6, i7, i8, i9, i10⟩
  | extCancel =>
    exact ⟨i1, i2, fun h => ⟨(i3 h).1, rfl⟩, i4, i5, i6, i7, fun _ => rfl, i9, i10⟩
  | recv sig rest hm hq =>
    refine ⟨?_, ?_, ?_, ?_, ?_, i6, i7, i8, ?_, ?_⟩
    · show rest.length ≤ 1
      rw [hq] at i1
      have hlen : rest.length + 1 ≤ 1 := by simpa using i1
      omega
    · intro _; exact i2 (Or.inl hm)
    · intro h; simp at h
    · intro h; simp at h
    · intro _; exact ⟨sig, rfl⟩
    · intro h
      have := i9 h
      rw [hm] at this; simp at this
    · intro h; simp at h
  | cancel hm =>
    refine ⟨i1, ?_, ?_, ?_, ?_, i6, i7, fun _ => rfl, ?_, ?_⟩
    · intro h; simp at h
    · intro _
      exact ⟨by simp [i2 (Or.inr hm)], rfl⟩
    · intro h; simp at h
    · intro _; exact i5 (by rw [hm]; simp)
    · intro h
      have := i9 h
      rw [hm] at this; simp at this
    · intro h; simp at h
  | bgRun hb hd =>
    refine ⟨i1, i2, i3, i4, i5, ?_, ?_, fun _ => hd, i9, ?_⟩
    · intro h; simp at h
    · intro _
      exact ⟨by simp [(i6 hb).1], rfl⟩
    · intro h
      exact ⟨(i10 h).1, rfl⟩
  | join r hm hb hr =>
    have hrt : r = termRes := by
      have h7 := (i7 hb).2
      rw [hr] at h7
      exact Option.some.inj h7
    refine ⟨i1, ?_, ?_, ?_, ?_, i6, i7, i8, ?_, ?_⟩
    · intro h
      rcases h with h | h <;> simp at h
    · intro _
      exact i3 (Or.inl hm)
    · intro h; simp at h
    · intro _; exact i5 (by rw [hm]; simp)
    · intro _; rfl
    · intro _
      exact ⟨by rw [hrt], hb⟩

theorem waitInv_of_reachable {termRes : Option GoError} {s : WaitState}
    (h : WaitReachable termRes s) : WaitInv termRes s := by
  induction h with
  | refl => exact waitInv_init termRes
  | tail _ hst ih => exact waitInv_step hst ih

/-! ### Progress: once the caller has (or can receive) a signal, every
schedule can be extended to a state where `Wait` has returned. -/

theorem waitProgress_awaitJoin {termRes : Option GoError} {s : WaitState}
    (inv : WaitInv termRes s) (hm : s.main = .awaitJoin) :
    ∃ t, Relation.ReflTransGen (WaitStep termRes) s t ∧
      t.main = .returned ∧ t.callbackRuns = 1 := by
  obtain ⟨i1, i2, i3, i4, i5, i6, i7, i8, i9, i10⟩ := inv
  cases hbg : s.bg with
  | awaitDone =>
    have hdone : s.ctxDone = true := (i3 (Or.inl hm)).2
    have hruns : s.callbackRuns = 0 := (i6 hbg).1
    refine ⟨_, Relation.ReflTransGen.head (WaitStep.bgRun s hbg hdone)
      (Relation.ReflTransGen.head
        (WaitStep.join _ termRes hm rfl rfl) Relation.ReflTransGen.refl),
      rfl, ?_⟩
    show s.callbackRuns + 1 = 1
    omega
  | finished =>
    have hres : s.callbackResult = some termRes := (i7 hbg).2
    exact ⟨_, Relation.ReflTransGen.head (WaitStep.join s termRes hm hbg hres)
      Relation.ReflTransGen.refl, rfl, (i7 hbg).1⟩

theorem waitProgress_invokeCancel {termRes : Option GoError} {s : WaitState}
    (inv : WaitInv termRes s) (hm : s.main = .invokeCancel) :
    ∃ t, Relation.ReflTransGen (WaitStep termRes) s t ∧
      t.main = .returned ∧ t.callbackRuns = 1 := by
  have hstep := @WaitStep.cancel termRes s hm
  obtain ⟨t, htr, hret, hruns⟩ :=
    waitProgress_awaitJoin (waitInv_step hstep inv) rfl
  exact ⟨t, Relation.ReflTransGen.head hstep htr, hret, hruns⟩

theorem waitProgress {termRes : Option GoError} {s : WaitState}
    (h : WaitReachable termRes s)
    (hsig : s.sigQueue ≠ [] ∨ s.main ≠ .awaitSignal) :
    ∃ t, Relation.ReflTransGen (WaitStep termRes) s t ∧
      t.main = .returned ∧ t.callbackRuns = 1 := by
  have inv := waitInv_of_reachable h
  cases hm : s.main with
  | awaitSignal =>
    have hq : s.sigQueue ≠ [] := by
      rcases hsig with hq | hmain
      · exact hq
      · exact absurd hm hmain
    obtain ⟨sig, rest, hcons⟩ : ∃ sig rest, s.sigQueue = sig :: rest := by
      cases hcons : s.sigQueue with
      | nil => exact absurd hcons hq
      | cons a l => exact ⟨a, l, rfl⟩
    have hstep := @WaitStep.recv termRes s sig rest hm hcons
    obtain ⟨t, htr, hret, hruns⟩ :=
      waitProgress_invokeCancel (waitInv_step hstep inv) rfl
    exact ⟨t, Relation.ReflTransGen.head hstep htr, hret, hruns⟩
  | invokeCancel => exact waitProgress_invokeCancel inv hm
  | awaitJoin => exact waitProgress_awaitJoin inv hm
  | returned =>
    obtain ⟨_, _, _, _, _, _, i7, _, _, i10⟩ := inv
    exact ⟨s, Relation.ReflTransGen.refl, hm, (i7 (i10 hm).2).1⟩

/-! ### A canonical complete execution, used to witness the claims. -/

/-- The state in which a run of `Wait` ends when a single signal `sig` is
delivered and the scheduler runs the remaining statements in order. -/
def waitFinal (termRes : Option GoError) (sig : Sig) : WaitState :=
  { sigQueue := []
    ctxDone := true
    coordCancels := 1
    extCancels := 0
    callbackRuns := 1
    callbackResult := some termRes
    recvSignal := some sig
    main := .returned
    bg := .finished
    ret := some (waitReturn termRes) }

theorem waitFinal_reachable (termRes : Option GoError) (sig : Sig) :
    WaitReachable termRes (waitFinal termRes sig) := by
  refine Relation.ReflTransGen.head (WaitStep.deliver initWait sig rfl) ?_
  refine Relation.ReflTransGen.head (WaitStep.recv _ sig [] rfl rfl) ?_
  refine Relation.ReflTransGen.head (WaitStep.cancel _ rfl) ?_
  refine Relation.ReflTransGen.head (WaitStep.bgRun _ rfl rfl) ?_
  refine Relation.ReflTransGen.head (WaitStep.join _ termRes rfl rfl rfl) ?_
  exact Relation.ReflTransGen.refl

/-! ### Claims about `Wait` -/

/-- C1: if the termination callback returns an error `E`, then in every
execution in which `Wait` has returned, the returned value is a non-nil
error that wraps `E` (unwrapping yields exactly `E`) and whose message
contains both "could not terminate gracefully" and the message of `E`. -/
theorem C1_wait_wraps_callback_error (E : GoError) (s : WaitState)
    (h : WaitReachable (some E) s) (hret : s.main = .returned) :
    ∃ err, s.ret = some (some err) ∧ err.unwrap = some E ∧
      strContains err.message "could not terminate gracefully" ∧
      strContains err.message E.message := by
  obtain ⟨_, _, _, _, _, _, _, _, _, i10⟩ := waitInv_of_reachable h
  refine ⟨GoError.wrap ("could not terminate gracefully: " ++ E.message) E,
    (i10 hret).1, rfl, ⟨"", ": " ++ E.message, ?_⟩,
    ⟨"could not terminate gracefully: ", "", ?_⟩⟩
  · rw [String.empty_append, ← String.append_assoc]
    rfl
  · rw [String.append_empty]
    rfl

/-- C1 witness: the scenario of the spec — a callback failing with
"disk flush failed" and a SIGTERM delivery — instantiates the theorem. -/
theorem C1_wait_wraps_callback_error_witness :
    ∃ err,
      (waitFinal (some (GoError.base "disk flush failed")) Sig.SIGTERM).ret
        = some (some err) ∧
      err.unwrap = some (GoError.base "disk flush failed") ∧
      strContains err.message "could not terminate gracefully" ∧
      strContains err.message (GoError.base "disk flush failed").message :=
  C1_wait_wraps_callback_error (GoError.base "disk flush failed")
    (waitFinal (some (GoError.base "disk flush failed")) Sig.SIGTERM)
    (waitFinal_reachable _ _) rfl

/-- C2: if the termination callback returns success (`nil`), `Wait`
returns `nil` in every execution in which it has returned. -/
theorem C2_wait_nil_on_success (s : WaitState)
    (h : WaitReachable none s) (hret : s.main = .returned) :
    s.ret = some none := by
  obtain ⟨_, _, _, _, _, _, _, _, _, i10⟩ := waitInv_of_reachable h
  exact (i10 hret).1

/-- C2 witness: the canonical successful execution. -/
theorem C2_wait_nil_on_success_witness :
    (waitFinal none Sig.SIGINT).ret = some none :=
  C2_wait_nil_on_success (waitFinal none Sig.SIGINT)
    (waitFinal_reachable _ _) rfl

/-- C3: in every execution of one `Wait` call in which a termination
signal is received, the coordinator invokes the cancel trigger exactly
once and the callback runs exactly once; even if external code also
invokes the same cancel trigger (so it fires twice in total), the
callback never runs a second time, and the machine never deadlocks: from
any reachable state in which a signal is queued or already consumed, the
run can always be extended to a returned state with one callback run. -/
theorem C3_single_cancel_single_callback (termRes : Option GoError)
    (s : WaitState) (h : WaitReachable termRes s) :
    (s.main = .returned → s.coordCancels = 1 ∧ s.callbackRuns = 1) ∧
    s.callbackRuns ≤ 1 ∧
    ((s.sigQueue ≠ [] ∨ s.main ≠ .awaitSignal) →
      ∃ t, Relation.ReflTransGen (WaitStep termRes) s t ∧
        t.main = .returned ∧ t.callbackRuns = 1) := by
  obtain ⟨i1, i2, i3, i4, i5, i6, i7, i8, i9, i10⟩ := waitInv_of_reachable h
  refine ⟨?_, ?_, waitProgress h⟩
  · intro hret
    exact ⟨(i3 (Or.inr hret)).1, (i7 (i10 hret).2).1⟩
  · cases hbg : s.bg with
    | awaitDone => rw [(i6 hbg).1]; omega
    | finished => rw [(i7 hbg).1]

/-- C3 witness: instantiated on a state in which both the coordinator and
the environment have invoked the cancel trigger. -/
theorem C3_single_cancel_single_callback_witness :
    ((waitFinal none Sig.SIGTERM).main = .returned →
      (waitFinal none Sig.SIGTERM).coordCancels = 1 ∧
      (waitFinal none Sig.SIGTERM).callbackRuns = 1) ∧
    (waitFinal none Sig.SIGTERM).callbackRuns ≤ 1 ∧
    (((waitFinal none Sig.SIGTERM).sigQueue ≠ [] ∨
        (waitFinal none Sig.SIGTERM).main ≠ .awaitSignal) →
      ∃ t, Relation.ReflTransGen (WaitStep none) (waitFinal none Sig.SIGTERM) t ∧
        t.main = .returned ∧ t.callbackRuns = 1) :=
  C3_single_cancel_single_callback none (waitFinal none Sig.SIGTERM)
    (waitFinal_reachable _ _)

/-- C4: in every execution of `Wait`, by the time the caller waits on the
background task (`eg.Wait`), the cancel trigger has been invoked and the
done-flag is set; and whenever the termination callback has started, the
done-notification had already fired — whichever origin (coordinator or
external) set it. -/
theorem C4_cancel_before_join_done_before_callback (termRes : Option GoError)
    (s : WaitState) (h : WaitReachable termRes s) :
    ((s.main = .awaitJoin ∨ s.main = .returned) →
      s.coordCancels = 1 ∧ s.ctxDone = true) ∧
    (1 ≤ s.callbackRuns → s.ctxDone = true) := by
  obtain ⟨_, _, i3, _, _, _, _, i8, _, _⟩ := waitInv_of_reachable h
  exact ⟨i3, i8⟩

/-- C4 witness: the canonical completed execution. -/
theorem C4_cancel_before_join_done_before_callback_witness :
    (((waitFinal none Sig.SIGINT).main = .awaitJoin ∨
        (waitFinal none Sig.SIGINT).main = .returned) →
      (waitFinal none Sig.SIGINT).coordCancels = 1 ∧
      (waitFinal none Sig.SIGINT).ctxDone = true) ∧
    (1 ≤ (waitFinal none Sig.SIGINT).callbackRuns →
      (waitFinal none Sig.SIGINT).ctxDone = true) :=
  C4_cancel_before_join_done_before_callback none (waitFinal none Sig.SIGINT)
    (waitFinal_reachable _ _)

/-- C7: external cancellation before any signal still runs the callback
exactly once (never more than once in any reachable state), but `Wait`
does not return without a signal: every returned state has consumed a
signal, and there is an execution with one external cancellation, no
signal and a completed callback in which `Wait` has not returned. -/
theorem C7_external_cancel_no_short_circuit (termRes : Option GoError)
    (s : WaitState) (h : WaitReachable termRes s) :
    (s.main = .returned → ∃ sig, s.recvSignal = some sig) ∧
    s.callbackRuns ≤ 1 ∧
    (∃ t, WaitReachable termRes t ∧ t.extCancels = 1 ∧ t.coordCancels = 0 ∧
      t.recvSignal = none ∧ t.callbackRuns = 1 ∧ t.main ≠ .returned) := by
  obtain ⟨_, _, _, _, i5, i6, i7, _, _, _⟩ := waitInv_of_reachable h
  refine ⟨?_, ?_, ?_⟩
  · intro hret
    exact i5 (by rw [hret]; simp)
  · cases hbg : s.bg with
    | awaitDone => rw [(i6 hbg).1]; omega
    | finished => rw [(i7 hbg).1]
  · refine ⟨_, Relation.ReflTransGen.head (WaitStep.extCancel initWait)
      (Relation.ReflTransGen.head (WaitStep.bgRun _ rfl rfl)
        Relation.ReflTransGen.refl), rfl, rfl, rfl, rfl, by simp [initWait]⟩

/-- C7 witness: instantiated on the canonical completed execution. -/
theorem C7_external_cancel_no_short_circuit_witness :
    ((waitFinal none Sig.SIGTERM).main = .returned →
      ∃ sig, (waitFinal none Sig.SIGTERM).recvSignal = some sig) ∧
    (waitFinal none Sig.SIGTERM).callbackRuns ≤ 1 ∧
    (∃ t, WaitReachable none t ∧ t.extCancels = 1 ∧ t.coordCancels = 0 ∧
      t.recvSignal = none ∧ t.callbackRuns = 1 ∧ t.main ≠ .returned) :=
  C7_external_cancel_no_short_circuit none (waitFinal none Sig.SIGTERM)
    (waitFinal_reachable _ _)

/-! ### The `WaitWithLogger` state machine (shutdown.go lines 51–82)

Same algorithm as `Wait`, with four status emissions interleaved.  Each
emission `logger.Event("shutdown").Signal(sig).Info(msg)` is recorded as
a `LogEvent`; the `events` list grows by appending, so list order is
emission order. -/

/-- One emitted status record: event name, signal string and message of
an `Event(...).Signal(...).Info(...)` chain. -/
structure LogEvent where
  event : String
  signal : String
  msg : String
deriving DecidableEq, Repr

/-- The record emitted by `logger.Event("shutdown").Signal(sig).Info(msg)`. -/
def shutdownEvent (sig : Sig) (msg : String) : LogEvent :=
  { event := "shutdown", signal := sig.str, msg := msg }

/-- The four status messages, cumulatively. -/
def lEvents1 (sig : Sig) : List LogEvent :=
  [shutdownEvent sig "Starting graceful shutdown process"]

def lEvents2 (sig : Sig) : List LogEvent :=
  lEvents1 sig ++ [shutdownEvent sig "Propagating cancellation"]

def lEvents3 (sig : Sig) : List LogEvent :=
  lEvents2 sig ++ [shutdownEvent sig "Cancellation propagated"]

def lEvents4 (sig : Sig) : List LogEvent :=
  lEvents3 sig ++ [shutdownEvent sig "Shutdown process complete"]

/-- Program counter of the caller thread inside `WaitWithLogger`:
`logN` means "about to emit the N-th status event". -/
inductive LMainPC where
  | awaitSignal
  | log1
  | log2
  | invokeCancel
  | log3
  | awaitJoin
  | log4
  | returned
deriving DecidableEq, Repr

/-- State of one `WaitWithLogger` invocation. -/
structure LWaitState where
  sigQueue : List Sig
  ctxDone : Bool
  coordCancels : Nat
  extCancels : Nat
  callbackRuns : Nat
  callbackResult : Option (Option GoError)
  recvSignal : Option Sig
  main : LMainPC
  bg : BgPC
  /-- status records emitted so far, in emission order -/
  events : List LogEvent
  ret : Option (Option GoError)
deriving DecidableEq, Repr

/-- State at entry of `WaitWithLogger`. -/
def initLWait : LWaitState :=
  { sigQueue := []
    ctxDone := false
    coordCancels := 0
    extCancels := 0
    callbackRuns := 0
    callbackResult := none
    recvSignal := none
    main := .awaitSignal
    bg := .awaitDone
    events := []
    ret := none }

/-- One scheduler step of a `WaitWithLogger` execution whose termination
callback returns `termRes`. -/
inductive LWaitStep (termRes : Option GoError) : LWaitState → LWaitState → Prop where
  | deliver (s : LWaitState) (sig : Sig) (hq : s.sigQueue = []) :
      LWaitStep termRes s { s with sigQueue := [sig] }
  | extCancel (s : LWaitState) :
      LWaitStep termRes s { s with ctxDone := true, extCancels := s.extCancels + 1 }
  /-- line 68: `sig := <-gracefulStop` -/
  | recv (s : LWaitState) (sig : Sig) (rest : List Sig)
      (hm : s.main = .awaitSignal) (hq : s.sigQueue = sig :: rest) :
      LWaitStep termRes s
        { s with sigQueue := rest, recvSignal := some sig, main := .log1 }
  /-- line 69 -/
  | emit1 (s : LWaitState) (sig : Sig)
      (hm : s.main = .log1) (hs : s.recvSignal = some sig) :
      LWaitStep termRes s
        { s with
            events := s.events ++
              [shutdownEvent sig "Starting graceful shutdown process"],
            main := .log2 }
  /-- line 70 -/
  | emit2 (s : LWaitState) (sig : Sig)
      (hm : s.main = .log2) (hs : s.recvSignal = some sig) :
      LWaitStep termRes s
        { s with
            events := s.events ++ [shutdownEvent sig "Propagating cancellation"],
            main := .invokeCancel }
  /-- line 72: `cancel()` -/
  | cancel (s : LWaitState) (hm : s.main = .invokeCancel) :
      LWaitStep termRes s
        { s with ctxDone := true, coordCancels := s.coordCancels + 1, main := .log3 }
  /-- line 73 -/
  | emit3 (s : LWaitState) (sig : Sig)
      (hm : s.main = .log3) (hs : s.recvSignal = some sig) :
      LWaitStep termRes s
        { s with
            events := s.events ++ [shutdownEvent sig "Cancellation propagated"],
            main := .awaitJoin }
  /-- lines 62–65 -/
  | bgRun (s : LWaitState) (hb : s.bg = .awaitDone) (hd : s.ctxDone = true) :
      LWaitStep termRes s
        { s with callbackRuns := s.callbackRuns + 1
                 callbackResult := some termRes
                 bg := .finished }
  /-- lines 76–79: `eg.Wait()` returned an error — return early, the
  fourth event is never emitted -/
  | joinErr (s : LWaitState) (e : GoError)
      (hm : s.main = .awaitJoin) (hb : s.bg = .finished)
      (hr : s.callbackResult = some (some e)) :
      LWaitStep termRes s
        { s with
            ret := some (some (GoError.wrap
              ("could not terminate gracefully: " ++ e.message) e)),
            main := .returned }
  /-- lines 76–80: `eg.Wait()` returned nil — proceed to the fourth event -/
  | joinOk (s : LWaitState)
      (hm : s.main = .awaitJoin) (hb : s.bg = .finished)
      (hr : s.callbackResult = some none) :
      LWaitStep termRes s { s with main := .log4 }
  /-- lines 80–81 -/
  | emit4 (s : LWaitState) (sig : Sig)
      (hm : s.main = .log4) (hs : s.recvSignal = some sig) :
      LWaitStep termRes s
        { s with
            events := s.events ++ [shutdownEvent sig "Shutdown process complete"],
            ret := some none,
            main := .returned }

/-- Reachability for `WaitWithLogger`. -/
def LWaitReachable (termRes : Option GoError) : LWaitState → Prop :=
  Relation.ReflTransGen (LWaitStep termRes) initLWait

/-- The events that have been emitted when the caller thread is at a
given program counter, having received `sig`. -/
def expectedEvents (termRes : Option GoError) (pc : LMainPC) (sig : Sig) :
    List LogEvent :=
  match pc with
  | .awaitSignal => []
  | .log1 => []
  | .log2 => lEvents1 sig
  | .invokeCancel => lEvents2 sig
  | .log3 => lEvents2 sig
  | .awaitJoin => lEvents3 sig
  | .log4 => lEvents3 sig
  | .returned =>
    match termRes with
    | none => lEvents4 sig
    | some _ => lEvents3 sig

/-- Execution invariant of `WaitWithLogger`. -/
def LWaitInv (termRes : Option GoError) (s : LWaitState) : Prop :=
  s.sigQueue.length ≤ 1 ∧
  ((s.main = .awaitSignal ∨ s.main = .log1 ∨ s.main = .log2 ∨
      s.main = .invokeCancel) → s.coordCancels = 0) ∧
  ((s.main = .log3 ∨ s.main = .awaitJoin ∨ s.main = .log4 ∨
      s.main = .returned) → s.coordCancels = 1 ∧ s.ctxDone = true) ∧
  (s.main = .awaitSignal → s.recvSignal = none ∧ s.events = []) ∧
  (s.main ≠ .awaitSignal →
    ∃ sig, s.recvSignal = some sig ∧
      s.events = expectedEvents termRes s.main sig) ∧
  (s.bg = .awaitDone → s.callbackRuns = 0 ∧ s.callbackResult = none) ∧
  (s.bg = .finished → s.callbackRuns = 1 ∧ s.callbackResult = some termRes) ∧
  (1 ≤ s.callbackRuns → s.ctxDone = true) ∧
  (s.ret ≠ none → s.main = .returned) ∧
  (s.main = .returned → s.ret = some (waitReturn termRes) ∧ s.bg = .finished) ∧
  (s.main = .log4 → termRes = none ∧ s.bg = .finished)

theorem lwaitInv_init (termRes : Option GoError) : LWaitInv termRes initLWait := by
  simp [LWaitInv, initLWait]

theorem lwaitInv_step {termRes : Option GoError} {s t : LWaitState}
    (hst : LWaitStep termRes s t) (ih : LWaitInv termRes s) : LWaitInv termRes t := by
  obtain ⟨i1, i2, i3, i4, i5, i6, i7, i8, i9, i10, i11⟩ := ih
  cases hst with
  | deliver sig hq =>
    exact ⟨by simp, i2, i3, i4, i5, i6, i7, i8, i9, i10, i11⟩
  | extCancel =>
    exact ⟨i1, i2, fun h => ⟨(i3 h).1, rfl⟩, i4, i5, i6, i7, fun _ => rfl,
      i9, i10, i11⟩
  | recv sig rest hm hq =>
    refine ⟨?_, ?_, ?_, ?_, ?_, i6, i7, i8, ?_, ?_, ?_⟩
    · show rest.length ≤ 1
      rw [hq] at i1
      have hlen : rest.length + 1 ≤ 1 := by simpa using i1
      omega
    · intro _; exact i2 (Or.inl hm)
    · intro h; rcases h with h | h | h | h <;> simp at h
    · intro h; simp at h
    · intro _
      exact ⟨sig, rfl, (i4 hm).2⟩
    · intro h
      have := i9 h
      rw [hm] at this; simp at this
    · intro h; simp at h
    · intro h; simp at h
  | emit1 sig hm hs =>
    refine ⟨i1, ?_, ?_, ?_, ?_, i6, i7, i8, ?_, ?_, ?_⟩
    · intro _; exact i2 (Or.inr (Or.inl hm))
    · intro h; rcases h with h | h | h | h <;> simp at h
    · intro h; simp at h
    · intro _
      obtain ⟨sig0, hs0, hev⟩ := i5 (by rw [hm]; simp)
      rw [hs] at hs0
      obtain rfl : sig = sig0 := Option.some.inj hs0
      refine ⟨sig, hs, ?_⟩
      show s.events ++ [shutdownEvent sig "Starting graceful shutdown process"]
        = expectedEvents termRes LMainPC.log2 sig
      rw [hev, hm]
      rfl
    · intro h
      have := i9 h
      rw [hm] at this; simp at this
    · intro h; simp at h
    · intro h; simp at h
  | emit2 sig hm hs =>
    refine ⟨i1, ?_, ?_, ?_, ?_, i6, i7, i8, ?_, ?_, ?_⟩
    · intro _; exact i2 (Or.inr (Or.inr (Or.inl hm)))
    · intro h; rcases h with h | h | h | h <;> simp at h
    · intro h; simp at h
    · intro _
      obtain ⟨sig0, hs0, hev⟩ := i5 (by rw [hm]; simp)
      rw [hs] at hs0
      obtain rfl : sig = sig0 := Option.some.inj hs0
      refine ⟨sig, hs, ?_⟩
      show s.events ++ [shutdownEvent sig "Propagating cancellation"]
        = expectedEvents termRes LMainPC.invokeCancel sig
      rw [hev, hm]
      rfl
    · intro h
      have := i9 h
      rw [hm] at this; simp at this
    · intro h; simp at h
    · intro h; simp at h
  | cancel hm =>
    refine ⟨i1, ?_, ?_, ?_, ?_, i6, i7, fun _ => rfl, ?_, ?_, ?_⟩
    · intro h; rcases h with h | h | h | h <;> simp at h
    · intro _
      exact ⟨by simp [i2 (Or.inr (Or.inr (Or.inr hm)))], rfl⟩
    · intro h; simp at h
    · intro _
      obtain ⟨sig0, hs0, hev⟩ := i5 (by rw [hm]; simp)
      refine ⟨sig0, hs0, ?_⟩
      show s.events = expectedEvents termRes LMainPC.log3 sig0
      rw [hev, hm]
      rfl
    · intro h
      have := i9 h
      rw [hm] at this; simp at this
    · intro h; simp at h
    · intro h; simp at h
  | emit3 sig hm hs =>
    refine ⟨i1, ?_, ?_, ?_, ?_, i6, i7, i8, ?_, ?_, ?_⟩
    · intro h; rcases h with h | h | h | h <;> simp at h
    · intro _; exact i3 (Or.inl hm)
    · intro h; simp at h
    · intro _
      obtain ⟨sig0, hs0, hev⟩ := i5 (by rw [hm]; simp)
      rw [hs] at hs0
      obtain rfl : sig = sig0 := Option.some.inj hs0
      refine ⟨sig, hs, ?_⟩
      show s.events ++ [shutdownEvent sig "Cancellation propagated"]
        = expectedEvents termRes LMainPC.awaitJoin sig
      rw [hev, hm]
      rfl
    · intro h
      have := i9 h
      rw [hm] at this; simp at this
    · intro h; simp at h
    · intro h; simp at h
  | bgRun hb hd =>
    refine ⟨i1, i2, i3, i4, i5, ?_, ?_, fun _ => hd, i9, ?_, ?_⟩
    · intro h; simp at h
    · intro _
      exact ⟨by simp [(i6 hb).1], rfl⟩
    · intro h
      exact ⟨(i10 h).1, rfl⟩
    · intro h
      exact ⟨(i11 h).1, rfl⟩
  | joinErr e hm hb hr =>
    have hterm : termRes = some e := by
      have h7 := (i7 hb).2
      rw [hr] at h7
      exact (Option.some.inj h7).symm
    refine ⟨i1, ?_, ?_, ?_, ?_, i6, i7, i8, ?_, ?_, ?_⟩
    · intro h; rcases h with h | h | h | h <;> simp at h
    · intro _; exact i3 (Or.inr (Or.inl hm))
    · intro h; simp at h
    · intro _
      obtain ⟨sig0, hs0, hev⟩ := i5 (by rw [hm]; simp)
      refine ⟨sig0, hs0, ?_⟩
      show s.events = expectedEvents termRes LMainPC.returned sig0
      rw [hev, hm, hterm]
      rfl
    · intro _; rfl
    · intro _
      refine ⟨?_, hb⟩
      show some (some (GoError.wrap
          ("could not terminate gracefully: " ++ e.message) e))
        = some (waitReturn termRes)
      rw [hterm]
      rfl
    · intro h; simp at h
  | joinOk hm hb hr =>
    have hterm : termRes = none := by
      have h7 := (i7 hb).2
      rw [hr] at h7
      exact (Option.some.inj h7).symm
    refine ⟨i1, ?_, ?_, ?_, ?_, i6, i7, i8, ?_, ?_, ?_⟩
    · intro h; rcases h with h | h | h | h <;> simp at h
    · intro _; exact i3 (Or.inr (Or.inl hm))
    · intro h; simp at h
    · intro _
      obtain ⟨sig0, hs0, hev⟩ := i5 (by rw [hm]; simp)
      refine ⟨sig0, hs0, ?_⟩
      show s.events = expectedEvents termRes LMainPC.log4 sig0
      rw [hev, hm]
      rfl
    · intro h
      have := i9 h
      rw [hm] at this; simp at this
    · intro h; simp at h
    · intro _; exact ⟨hterm, hb⟩
  | emit4 sig hm hs =>
    have hterm : termRes = none := (i11 hm).1
    refine ⟨i1, ?_, ?_, ?_, ?_, i6, i7, i8, ?_, ?_, ?_⟩
    · intro h; rcases h with h | h | h | h <;> simp at h
    · intro _; exact i3 (Or.inr (Or.inr (Or.inl hm)))
    · intro h; simp at h
    · intro _
      obtain ⟨sig0, hs0, hev⟩ := i5 (by rw [hm]; simp)
      rw [hs] at hs0
      obtain rfl : sig = sig0 := Option.some.inj hs0
      refine ⟨sig, hs, ?_⟩
      show s.events ++ [shutdownEvent sig "Shutdown process complete"]
        = expectedEvents termRes LMainPC.returned sig
      rw [hev, hm, hterm]
      rfl
    · intro _; rfl
    · intro _
      refine ⟨?_, (i11 hm).2⟩
      show some (none : Option GoError) = some (waitReturn termRes)
      rw [hterm]
      rfl
    · intro h; simp at h

theorem lwaitInv_of_reachable {termRes : Option GoError} {s : LWaitState}
    (h : LWaitReachable termRes s) : LWaitInv termRes s := by
  induction h with
  | refl => exact lwaitInv_init termRes
  | tail _ hst ih => exact lwaitInv_step hst ih

/-- The state in which a run of `WaitWithLogger` with a succeeding
callback ends after one delivery of `sig`. -/
def lWaitFinalOk (sig : Sig) : LWaitState :=
  { sigQueue := []
    ctxDone := true
    coordCancels := 1
    extCancels := 0
    callbackRuns := 1
    callbackResult := some none
    recvSignal := some sig
    main := .returned
    bg := .finished
    events := lEvents4 sig
    ret := some none }

theorem lWaitFinalOk_reachable (sig : Sig) :
    LWaitReachable none (lWaitFinalOk sig) := by
  refine Relation.ReflTransGen.head (LWaitStep.deliver initLWait sig rfl) ?_
  refine Relation.ReflTransGen.head (LWaitStep.recv _ sig [] rfl rfl) ?_
  refine Relation.ReflTransGen.head (LWaitStep.emit1 _ sig rfl rfl) ?_
  refine Relation.ReflTransGen.head (LWaitStep.emit2 _ sig rfl rfl) ?_
  refine Relation.ReflTransGen.head (LWaitStep.cancel _ rfl) ?_
  refine Relation.ReflTransGen.head (LWaitStep.emit3 _ sig rfl rfl) ?_
  refine Relation.ReflTransGen.head (LWaitStep.bgRun _ rfl rfl) ?_
  refine Relation.ReflTransGen.head (LWaitStep.joinOk _ rfl rfl rfl) ?_
  refine Relation.ReflTransGen.head (LWaitStep.emit4 _ sig rfl rfl) ?_
  exact Relation.ReflTransGen.refl

/-- The state in which a run of `WaitWithLogger` whose callback fails
with `e` ends after one delivery of `sig`: only three events. -/
def lWaitFinalErr (e : GoError) (sig : Sig) : LWaitState :=
  { sigQueue := []
    ctxDone := true
    coordCancels := 1
    extCancels := 0
    callbackRuns := 1
    callbackResult := some (some e)
    recvSignal := some sig
    main := .returned
    bg := .finished
    events := lEvents3 sig
    ret := some (some (GoError.wrap
      ("could not terminate gracefully: " ++ e.message) e)) }

theorem lWaitFinalErr_reachable (e : GoError) (sig : Sig) :
    LWaitReachable (some e) (lWaitFinalErr e sig) := by
  refine Relation.ReflTransGen.head (LWaitStep.deliver initLWait sig rfl) ?_
  refine Relation.ReflTransGen.head (LWaitStep.recv _ sig [] rfl rfl) ?_
  refine Relation.ReflTransGen.head (LWaitStep.emit1 _ sig rfl rfl) ?_
  refine Relation.ReflTransGen.head (LWaitStep.emit2 _ sig rfl rfl) ?_
  refine Relation.ReflTransGen.head (LWaitStep.cancel _ rfl) ?_
  refine Relation.ReflTransGen.head (LWaitStep.emit3 _ sig rfl rfl) ?_
  refine Relation.ReflTransGen.head (LWaitStep.bgRun _ rfl rfl) ?_
  refine Relation.ReflTransGen.head (LWaitStep.joinErr _ e rfl rfl rfl) ?_
  exact Relation.ReflTransGen.refl

/-! ### Claims about `WaitWithLogger` -/

/-- C5 counterexample: the claim says every `WaitWithLogger` execution
that received a signal emits exactly four status events, but when the
termination callback fails the function returns after the third event:
here is a completed execution (callback error "disk flush failed",
signal SIGTERM) with only three events emitted. -/
theorem C5_counterexample_three_events_on_error :
    LWaitReachable (some (GoError.base "disk flush failed"))
      (lWaitFinalErr (GoError.base "disk flush failed") Sig.SIGTERM) ∧
    (lWaitFinalErr (GoError.base "disk flush failed") Sig.SIGTERM).main
      = .returned ∧
    (lWaitFinalErr (GoError.base "disk flush failed") Sig.SIGTERM).recvSignal
      = some Sig.SIGTERM ∧
    (lWaitFinalErr (GoError.base "disk flush failed") Sig.SIGTERM).events.length
      = 3 :=
  ⟨lWaitFinalErr_reachable _ _, rfl, rfl, rfl⟩

/-- C5 (amended): in every execution of `WaitWithLogger` in which a
signal is received and the termination callback returns nil, exactly
four status events are emitted, in the fixed order, each built from
`Event("shutdown")` plus `Signal(<received signal>)` with the same
received-signal value; list order is emission order, so each event is
observable strictly after the previous one. -/
theorem C5_logging_four_events_on_success (s : LWaitState)
    (h : LWaitReachable none s) (hret : s.main = .returned) :
    ∃ sig, s.recvSignal = some sig ∧
      s.events =
        [shutdownEvent sig "Starting graceful shutdown process",
         shutdownEvent sig "Propagating cancellation",
         shutdownEvent sig "Cancellation propagated",
         shutdownEvent sig "Shutdown process complete"] := by
  obtain ⟨_, _, _, _, i5, _, _, _, _, _, _⟩ := lwaitInv_of_reachable h
  obtain ⟨sig, hs, hev⟩ := i5 (by rw [hret]; simp)
  refine ⟨sig, hs, ?_⟩
  rw [hev, hret]
  rfl

/-- C5 witness: the canonical successful logging execution, with
SIGINT received. -/
theorem C5_logging_four_events_on_success_witness :
    ∃ sig, (lWaitFinalOk Sig.SIGINT).recvSignal = some sig ∧
      (lWaitFinalOk Sig.SIGINT).events =
        [shutdownEvent sig "Starting graceful shutdown process",
         shutdownEvent sig "Propagating cancellation",
         shutdownEvent sig "Cancellation propagated",
         shutdownEvent sig "Shutdown process complete"] :=
  C5_logging_four_events_on_success (lWaitFinalOk Sig.SIGINT)
    (lWaitFinalOk_reachable Sig.SIGINT) rfl

/-- C6: if the termination callback fails with `e`, `WaitWithLogger`
returns the wrapped error and has emitted only the first three status
events — "Shutdown process complete" is never emitted on the error
path. -/
theorem C6_logging_error_path_three_events (e : GoError) (s : LWaitState)
    (h : LWaitReachable (some e) s) (hret : s.main = .returned) :
    s.ret = some (some (GoError.wrap
      ("could not terminate gracefully: " ++ e.message) e)) ∧
    ∃ sig, s.recvSignal = some sig ∧
      s.events =
        [shutdownEvent sig "Starting graceful shutdown process",
         shutdownEvent sig "Propagating cancellation",
         shutdownEvent sig "Cancellation propagated"] := by
  obtain ⟨_, _, _, _, i5, _, _, _, _, i10, _⟩ := lwaitInv_of_reachable h
  obtain ⟨sig, hs, hev⟩ := i5 (by rw [hret]; simp)
  refine ⟨(i10 hret).1, sig, hs, ?_⟩
  rw [hev, hret]
  rfl

/-- C6 witness: the canonical failing logging execution, with SIGTERM
received. -/
theorem C6_logging_error_path_three_events_witness :
    (lWaitFinalErr (GoError.base "disk flush failed") Sig.SIGTERM).ret
      = some (some (GoError.wrap
        ("could not terminate gracefully: "
          ++ (GoError.base "disk flush failed").message)
        (GoError.base "disk flush failed"))) ∧
    ∃ sig,
      (lWaitFinalErr (GoError.base "disk flush failed") Sig.SIGTERM).recvSignal
        = some sig ∧
      (lWaitFinalErr (GoError.base "disk flush failed") Sig.SIGTERM).events =
        [shutdownEvent sig "Starting graceful shutdown process",
         shutdownEvent sig "Propagating cancellation",
         shutdownEvent sig "Cancellation propagated"] :=
  C6_logging_error_path_three_events (GoError.base "disk flush failed")
    (lWaitFinalErr (GoError.base "disk flush failed") Sig.SIGTERM)
    (lWaitFinalErr_reachable _ _) rfl

/-! ### Signal-registration surface (shutdown.go lines 26–27 and 58–59)

The only calls into the `os/signal` package in the whole file are the two
`signal.Notify` registrations at the top of each function; neither
function ever calls `signal.Stop`, `signal.Reset` or `signal.Ignore`, on
any path. -/

/-- A call into the `os/signal` package. -/
inductive SigAction where
  | notify (sig : Sig)
  | stop
  | reset
  | ignore
deriving DecidableEq, Repr

/-- Does the action register a signal? -/
def SigAction.isNotify : SigAction → Bool
  | .notify _ => true
  | _ => false

/-- The sequence of `os/signal` calls performed by one call of `Wait`
(lines 26–27), in program order.  There are no conditional or deferred
signal calls anywhere else in the function. -/
def waitSignalActions : List SigAction :=
  [.notify .SIGTERM, .notify .SIGINT]

/-- The sequence of `os/signal` calls performed by one call of
`WaitWithLogger` (lines 58–59). -/
def waitWithLoggerSignalActions : List SigAction :=
  [.notify .SIGTERM, .notify .SIGINT]

/-- The signals registered by a sequence of signal actions. -/
def notifiedSignals (l : List SigAction) : List Sig :=
  l.filterMap fun a =>
    match a with
    | .notify sig => some sig
    | _ => none

/-- C8: both `Wait` and `WaitWithLogger` register exactly the two
signals SIGTERM and SIGINT, and perform no other signal-package
operation (no Stop/Reset/Ignore, hence no mask manipulation beyond
registration). -/
theorem C8_signal_surface_INT_TERM_only :
    notifiedSignals waitSignalActions = [Sig.SIGTERM, Sig.SIGINT] ∧
    notifiedSignals waitWithLoggerSignalActions = [Sig.SIGTERM, Sig.SIGINT] ∧
    waitSignalActions.filter (fun a => ! a.isNotify) = [] ∧
    waitWithLoggerSignalActions.filter (fun a => ! a.isNotify) = [] := by
  decide

/-- The signal actions performed by `n` successive calls of `Wait`. -/
def signalActionsAfterCalls (n : Nat) : List SigAction :=
  (List.replicate n waitSignalActions).flatten

/-- C9 counterexample: the claim says the signal subscription is
released on every exit path of `Wait`, i.e. a `signal.Stop` call occurs;
but neither `Wait` nor `WaitWithLogger` ever performs any
signal-package call other than the two registrations. -/
theorem C9_counterexample_no_stop_call :
    SigAction.stop ∉ waitSignalActions ∧
    SigAction.stop ∉ waitWithLoggerSignalActions := by
  decide

/-- C9 (amended): the signal channel is created per call and discarded,
but the subscription is never released: `Wait` performs no
deregistration on any exit path, so the process-wide handler
registration persists after `Wait` returns, and `n` repeated calls
accumulate `2 * n` registrations and zero deregistrations. -/
theorem C9_registrations_accumulate (n : Nat) :
    SigAction.stop ∉ signalActionsAfterCalls n ∧
    (signalActionsAfterCalls n).length = 2 * n ∧
    (signalActionsAfterCalls n).filter (fun a => ! a.isNotify) = [] := by
  induction n with
  | zero => simp [signalActionsAfterCalls]
  | succ m ih =>
    obtain ⟨ih1, ih2, ih3⟩ := ih
    have hrep : signalActionsAfterCalls (m + 1)
        = waitSignalActions ++ signalActionsAfterCalls m := by
      simp [signalActionsAfterCalls, List.replicate_succ]
    refine ⟨?_, ?_, ?_⟩
    · rw [hrep]
      intro hmem
      rcases List.mem_append.mp hmem with hmem | hmem
      · simp [waitSignalActions] at hmem
      · exact ih1 hmem
    · rw [hrep]
      simp only [List.length_append, ih2, waitSignalActions]
      simp
      omega
    · rw [hrep, List.filter_append, ih3]
      rfl

/-! ### The structured logger (logger/logger.go)

`FastLogger` holds a zerolog logger by value; each field-setter copies
the receiver into a fresh local, extends the field context of the copy and
returns a pointer to the fresh copy.  To make non-mutation a real
statement, the heap is explicit: a list of `FastLogger` cells, pointers
are indices, and taking the address of a fresh local appends a cell. -/

/-- The zerolog logger: its accumulated structured-field context. -/
structure ZLogger where
  fields : List (String × String)
deriving DecidableEq, Repr

/-- Struct FastLogger (logger.go lines 87–90). -/
structure FastLogger where
  lggr : ZLogger
deriving DecidableEq, Repr

/-- A heap of `FastLogger` cells; a `*FastLogger` is an index. -/
abbrev LogHeap := List FastLogger

/-- Dereference a `*FastLogger`. -/
def readLogger (h : LogHeap) (p : Nat) : FastLogger :=
  h.getD p ⟨⟨[]⟩⟩

/-- The fresh cell allocated by `FastLogger.Event`: a copy of `*p` whose
zerolog context has one more ("event", e) field. -/
def cellEvent (h : LogHeap) (p : Nat) (e : String) : FastLogger :=
  ⟨⟨(readLogger h p).lggr.fields ++ [("event", e)]⟩⟩

/-- The fresh cell allocated by `FastLogger.Signal`: a copy of `*p` whose
zerolog context has one more ("signal", sigStr) field. -/
def cellSignal (h : LogHeap) (p : Nat) (sigStr : String) : FastLogger :=
  ⟨⟨(readLogger h p).lggr.fields ++ [("signal", sigStr)]⟩⟩

/-- Method FastLogger.Event (logger.go lines 128–132): copy the receiver
into a fresh lcopy, extend the field context of the copy with the event
field, and return a pointer to the copy.  Returns the heap extended with
the fresh copy and the returned pointer. -/
def eventOp (h : LogHeap) (p : Nat) (e : String) : LogHeap × Nat :=
  (h ++ [cellEvent h p e], h.length)

/-- Method FastLogger.Signal (logger.go lines 156–160), with the String()
value of the signal already taken. -/
def signalOp (h : LogHeap) (p : Nat) (sigStr : String) : LogHeap × Nat :=
  (h ++ [cellSignal h p sigStr], h.length)

theorem readLogger_append_lt (h : LogHeap) (l : List FastLogger) (q : Nat)
    (hq : q < h.length) : readLogger (h ++ l) q = readLogger h q := by
  simp only [readLogger, List.getD]
  rw [List.get?_append hq]

theorem readLogger_append_self (h : LogHeap) (x : FastLogger) :
    readLogger (h ++ [x]) h.length = x := by
  simp [readLogger, List.getD_append_right, Nat.sub_self]

/-- The heap and the two result pointers of two chains built from the
same shared logger `p`: first `p.Event(e).Signal(s1)`, then `p.Event(e2)`
at another call site. -/
def twoChains (h : LogHeap) (p : Nat) (e s1 e2 : String) :
    LogHeap × Nat × Nat :=
  let r1 := eventOp h p e
  let r2 := signalOp r1.1 r1.2 s1
  let r3 := eventOp r2.1 p e2
  (r3.1, r2.2, r3.2)

/-- C10: the field-setters return a fresh instance with one more field
and never mutate the receiver: any existing cell `q` reads the same
after `Event` or `Signal`, and two chains built from the same shared
logger `p` are independent — the first sees only its own two fields, the
second only its own one, and `p` itself is unchanged. -/
theorem C10_chain_setters_immutable (h : LogHeap) (p q : Nat)
    (e s1 e2 : String) (hp : p < h.length) (hq : q < h.length) :
    readLogger (eventOp h p e).1 q = readLogger h q ∧
    readLogger (signalOp h p s1).1 q = readLogger h q ∧
    readLogger (twoChains h p e s1 e2).1 (twoChains h p e s1 e2).2.1
      = ⟨⟨(readLogger h p).lggr.fields ++ [("event", e), ("signal", s1)]⟩⟩ ∧
    readLogger (twoChains h p e s1 e2).1 (twoChains h p e s1 e2).2.2
      = ⟨⟨(readLogger h p).lggr.fields ++ [("event", e2)]⟩⟩ ∧
    readLogger (twoChains h p e s1 e2).1 p = readLogger h p := by
  have ht1 : (twoChains h p e s1 e2).1
      = ((h ++ [cellEvent h p e])
          ++ [cellSignal (h ++ [cellEvent h p e]) h.length s1])
        ++ [cellEvent ((h ++ [cellEvent h p e])
            ++ [cellSignal (h ++ [cellEvent h p e]) h.length s1]) p e2] := rfl
  have ht2 : (twoChains h p e s1 e2).2.1 = (h ++ [cellEvent h p e]).length := rfl
  have ht3 : (twoChains h p e s1 e2).2.2
      = ((h ++ [cellEvent h p e])
          ++ [cellSignal (h ++ [cellEvent h p e]) h.length s1]).length := rfl
  have hp1 : p < (h ++ [cellEvent h p e]).length := by
    simp only [List.length_append, List.length_cons, List.length_nil]
    omega
  have hp2 : p < ((h ++ [cellEvent h p e])
      ++ [cellSignal (h ++ [cellEvent h p e]) h.length s1]).length := by
    simp only [List.length_append, List.length_cons, List.length_nil]
    omega
  have hlen1 : (h ++ [cellEvent h p e]).length
      < ((h ++ [cellEvent h p e])
          ++ [cellSignal (h ++ [cellEvent h p e]) h.length s1]).length := by
    simp only [List.length_append, List.length_cons, List.length_nil]
    omega
  have hrB : readLogger (h ++ [cellEvent h p e]) h.length = cellEvent h p e :=
    readLogger_append_self h _
  have hcB : cellSignal (h ++ [cellEvent h p e]) h.length s1
      = ⟨⟨(readLogger h p).lggr.fields ++ [("event", e)] ++ [("signal", s1)]⟩⟩ := by
    show (⟨⟨(readLogger (h ++ [cellEvent h p e]) h.length).lggr.fields
      ++ [("signal", s1)]⟩⟩ : FastLogger) = _
    rw [hrB]
    rfl
  have hrecv : readLogger ((h ++ [cellEvent h p e])
      ++ [cellSignal (h ++ [cellEvent h p e]) h.length s1]) p = readLogger h p := by
    rw [readLogger_append_lt _ _ _ hp1]
    exact readLogger_append_lt _ _ _ hp
  have hcC : cellEvent ((h ++ [cellEvent h p e])
      ++ [cellSignal (h ++ [cellEvent h p e]) h.length s1]) p e2
      = ⟨⟨(readLogger h p).lggr.fields ++ [("event", e2)]⟩⟩ := by
    show (⟨⟨(readLogger ((h ++ [cellEvent h p e])
      ++ [cellSignal (h ++ [cellEvent h p e]) h.length s1]) p).lggr.fields
      ++ [("event", e2)]⟩⟩ : FastLogger) = _
    rw [hrecv]
  refine ⟨readLogger_append_lt h _ q hq, readLogger_append_lt h _ q hq,
    ?_, ?_, ?_⟩
  · rw [ht1, ht2, readLogger_append_lt _ _ _ hlen1, readLogger_append_self,
      hcB, List.append_assoc]
    rfl
  · rw [ht1, ht3, readLogger_append_self, hcC]
  · rw [ht1, readLogger_append_lt _ _ _ hp2]
    exact hrecv

/-- C10 witness: a concrete shared logger with one service field and
two concrete chains. -/
theorem C10_chain_setters_immutable_witness :
    readLogger (eventOp [⟨⟨[("service", "svc")]⟩⟩] 0 "shutdown").1 0
      = readLogger [⟨⟨[("service", "svc")]⟩⟩] 0 ∧
    readLogger (signalOp [⟨⟨[("service", "svc")]⟩⟩] 0 "interrupt").1 0
      = readLogger [⟨⟨[("service", "svc")]⟩⟩] 0 ∧
    readLogger (twoChains [⟨⟨[("service", "svc")]⟩⟩] 0 "shutdown" "interrupt" "http").1
        (twoChains [⟨⟨[("service", "svc")]⟩⟩] 0 "shutdown" "interrupt" "http").2.1
      = ⟨⟨(readLogger [⟨⟨[("service", "svc")]⟩⟩] 0).lggr.fields
          ++ [("event", "shutdown"), ("signal", "interrupt")]⟩⟩ ∧
    readLogger (twoChains [⟨⟨[("service", "svc")]⟩⟩] 0 "shutdown" "interrupt" "http").1
        (twoChains [⟨⟨[("service", "svc")]⟩⟩] 0 "shutdown" "interrupt" "http").2.2
      = ⟨⟨(readLogger [⟨⟨[("service", "svc")]⟩⟩] 0).lggr.fields
          ++ [("event", "http")]⟩⟩ ∧
    readLogger (twoChains [⟨⟨[("service", "svc")]⟩⟩] 0 "shutdown" "interrupt" "http").1 0
      = readLogger [⟨⟨[("service", "svc")]⟩⟩] 0 :=
  C10_chain_setters_immutable [⟨⟨[("service", "svc")]⟩⟩] 0 0
    "shutdown" "interrupt" "http" (by decide) (by decide)

end Pkg
